import Mathlib

/-!
# Verification of the sales-dashboard data pipeline (`app_dash.py`)

Shallow embedding of the data-processing core of the repository:
the normalizer (`read_sales_data` / `process_data`), the filter engine
(`apply_filters` / `filter_by_rolling_days`), the weekday aggregator
(`analyze_sales_by_weekday`), and the financial calculator
(`calculate_financial_results`), together with theorems settling the
frozen claims about them.

Monetary values are embedded as exact rationals (`ℚ`); calendar dates as a
`Date` structure with a day-index for ordering and arithmetic.  Functions
delegated by the source to the pandas library (numeric coercion of strings,
date parsing) are modelled for the input shapes the pipeline exercises.
-/

namespace Pit

/-! ## Parsing of numeric strings (models `pd.to_numeric(..., errors='coerce')`) -/

/-- Numeric value of a decimal digit, `none` for non-digits. -/
def digitVal (c : Char) : Option ℕ :=
  if c.isDigit then some (c.toNat - 48) else none

/-- Reads a non-empty all-digit character list as a natural number. -/
def parseNatCore : List Char → ℕ → Option ℕ
  | [], acc => some acc
  | c :: cs, acc =>
    match digitVal c with
    | some d => parseNatCore cs (acc * 10 + d)
    | none => none

/-- Models the vendor (pandas) numeric parser for the string shapes the
pipeline exercises: an optional leading minus, a non-empty integer part,
and an optional fractional part.  Anything else parses to `none`
(`errors='coerce'` turns it into NaN). -/
def parseDecimal (s : String) : Option ℚ :=
  let signed : List Char → Option ℚ := fun cs =>
    let intPart := cs.takeWhile (fun c => c ≠ '.')
    let rest := cs.dropWhile (fun c => c ≠ '.')
    match intPart with
    | [] => none
    | _ =>
      match parseNatCore intPart 0 with
      | none => none
      | some n =>
        match rest with
        | [] => some (n : ℚ)
        | _ :: frac =>
          match frac with
          | [] => some (n : ℚ)
          | _ =>
            match parseNatCore frac 0 with
            | none => none
            | some f => some ((n : ℚ) + (f : ℚ) / (10 : ℚ) ^ frac.length)
  match s.data with
  | '-' :: cs => (signed cs).map (fun q => -q)
  | cs => signed cs

/-! ## Calendar dates -/

/-- A calendar date (proleptic Gregorian). -/
structure Date where
  year : ℕ
  month : ℕ
  day : ℕ
deriving DecidableEq, Repr

/-- Gregorian leap-year test. -/
def isLeap (y : ℕ) : Bool :=
  (y % 4 == 0 && y % 100 != 0) || y % 400 == 0

/-- Number of days in a month. -/
def daysInMonth (y m : ℕ) : ℕ :=
  if m = 2 then (if isLeap y then 29 else 28)
  else if m = 4 ∨ m = 6 ∨ m = 9 ∨ m = 11 then 30
  else 31

/-- Days in the months of year `y` strictly before month `m`. -/
def daysBeforeMonth (y m : ℕ) : ℕ :=
  (List.range (m - 1)).foldl (fun acc i => acc + daysInMonth y (i + 1)) 0

/-- Day index of a date: day 0 is 0001-01-01 of the proleptic Gregorian
calendar (a Monday), so ordering and day-difference arithmetic on dates
coincide with ordering and subtraction of indices. -/
def Date.idx (d : Date) : ℤ :=
  let y := d.year - 1
  (365 * y + y / 4 + y / 400 - y / 100 + daysBeforeMonth d.year d.month + (d.day - 1) : ℕ)

/-- Day of week, Monday = 0 (as in pandas `Series.dt.dayofweek`). -/
def Date.dayofweek (d : Date) : ℕ :=
  (d.idx % 7).toNat

/-- A date with in-range month and day, built only when valid. -/
def mkValidDate (y m d : ℕ) : Option Date :=
  if 1 ≤ m ∧ m ≤ 12 ∧ 1 ≤ d ∧ d ≤ daysInMonth y m then some ⟨y, m, d⟩ else none

/-- Splits a character list on a separator character; adjacent separators
yield empty groups, like `String.splitOn` on single-character separators. -/
def splitOnChar (sep : Char) : List Char → List (List Char)
  | [] => [[]]
  | c :: rest =>
    let r := splitOnChar sep rest
    if c = sep then [] :: r
    else
      match r with
      | [] => [[c]]
      | g :: gs => (c :: g) :: gs

/-- Reads a non-empty all-digit character list as a natural number. -/
def parseNatChars (cs : List Char) : Option ℕ :=
  match cs with
  | [] => none
  | _ => parseNatCore cs 0

/-- Models `pd.to_datetime(col, format='%d/%m/%Y', errors='coerce')` on one
string: strict day/month/4-digit-year with slashes, `none` (NaT) otherwise. -/
def parseDDMMYYYY (s : String) : Option Date :=
  match splitOnChar '/' s.data with
  | [ds, ms, ys] =>
    if ys.length = 4 then
      match parseNatChars ds, parseNatChars ms, parseNatChars ys with
      | some d, some m, some y => mkValidDate y m d
      | _, _, _ => none
    else none
  | _ => none

/-- Models the vendor (pandas) lenient day-first parser
(`pd.to_datetime(..., dayfirst=True, errors='coerce')`) for the formats the
pipeline exercises: day-first slash dates `DD/MM/YYYY` and ISO dash dates
`YYYY-MM-DD`. -/
def parseDayfirst (s : String) : Option Date :=
  match splitOnChar '/' s.data with
  | [ds, ms, ys] =>
    match parseNatChars ds, parseNatChars ms, parseNatChars ys with
    | some d, some m, some y => mkValidDate y m d
    | _, _, _ => none
  | _ =>
    match splitOnChar '-' s.data with
    | [ys, ms, ds] =>
      match parseNatChars ys, parseNatChars ms, parseNatChars ds with
      | some y, some m, some d => mkValidDate y m d
      | _, _, _ => none
    | _ => none

/-! ## Raw cells and rows -/

/-- A raw monetary cell as returned by the spreadsheet: a string or a number. -/
inductive MCell
  | str (s : String)
  | num (q : ℚ)
deriving DecidableEq, Repr

/-- A raw date cell: a string, an already-parsed date, or a null (NaT/NaN). -/
inductive DCell
  | str (s : String)
  | date (d : Date)
  | null
deriving DecidableEq, Repr

/-- One raw row of the sales table. -/
structure PRow where
  data : DCell
  cartao : MCell
  dinheiro : MCell
  pix : MCell
deriving DecidableEq, Repr

/-! ## Monetary coercion (`read_sales_data` lines 95-100, `process_data` lines 143-147) -/

/-- One monetary cell through `read_sales_data`: `.replace('', 0)` followed by
`pd.to_numeric(errors='coerce').fillna(0)`. -/
def readMoneyCell : MCell → ℚ
  | .num q => q
  | .str s => if s = "" then 0 else (parseDecimal s).getD 0

/-- One monetary cell through `process_data`:
`pd.to_numeric(errors='coerce').fillna(0)` (no empty-string replace; the
empty string is non-numeric and coerces to NaN, hence to 0). -/
def procMoneyCell : MCell → ℚ
  | .num q => q
  | .str s => (parseDecimal s).getD 0

/-- A monetary column through `read_sales_data`: a missing column is created
as all-zero (`df[col] = 0`), a present one is coerced cell by cell. -/
def readMoneyColumn (present : Bool) (cells : List MCell) : List ℚ :=
  if present then cells.map readMoneyCell else cells.map (fun _ => 0)

/-! ## The date block of `read_sales_data` (lines 102-107) -/

/-- `pd.to_datetime` applied to an already-datetime column: parsed dates and
NaT values pass through unchanged (no string is left to re-parse). -/
def to_datetime_on_datetime (c : Option Date) : Option Date := c

/-- The date block of `read_sales_data`: the column is overwritten with the
strict `%d/%m/%Y` parse; if that left no valid date at all, the fallback
re-parses the overwritten (already-coerced) column, on which every value
passes through unchanged. -/
def readProcessDates (raw : List String) : List (Option Date) :=
  let parsed := raw.map parseDDMMYYYY
  if parsed.all Option.isNone then parsed.map to_datetime_on_datetime else parsed

/-- The dates retained after `dropna(subset=['Data'])`. -/
def readKeptDates (raw : List String) : List Date :=
  (readProcessDates raw).filterMap id

/-! ## Fixed orderings and derived fields (`process_data` lines 149-172) -/

/-- The fixed Monday-first weekday names (`dias_semana_ordem`, line 36). -/
def dias_semana_ordem : List String :=
  ["Segunda-feira", "Terça-feira", "Quarta-feira", "Quinta-feira",
   "Sexta-feira", "Sábado", "Domingo"]

/-- The fixed month names (`meses_ordem`, line 37). -/
def meses_ordem : List String :=
  ["Janeiro", "Fevereiro", "Março", "Abril", "Maio", "Junho",
   "Julho", "Agosto", "Setembro", "Outubro", "Novembro", "Dezembro"]

/-- `day_map` (line 164): weekday name from `dayofweek`, Monday = 0. -/
def day_map (w : ℕ) : String := dias_semana_ordem.getD w ""

/-- Month name (line 162): `meses_ordem[m-1]` when `1 ≤ m ≤ 12`, the
sentinel otherwise. -/
def mesNomeOf (m : ℕ) : String :=
  if 1 ≤ m ∧ m ≤ 12 then meses_ordem.getD (m - 1) "Inválido" else "Inválido"

/-- Zero-padded two-digit rendering of a number. -/
def pad2 (n : ℕ) : String := if n < 10 then "0" ++ toString n else toString n

/-- Zero-padded four-digit rendering of a number. -/
def pad4 (n : ℕ) : String :=
  if n < 10 then "000" ++ toString n
  else if n < 100 then "00" ++ toString n
  else if n < 1000 then "0" ++ toString n
  else toString n

/-- `strftime('%d/%m/%Y')`. -/
def fmtDDMMYYYY (d : Date) : String :=
  pad2 d.day ++ "/" ++ pad2 d.month ++ "/" ++ pad4 d.year

/-- `strftime('%Y-%m')`. -/
def fmtYYYYMM (d : Date) : String := pad4 d.year ++ "-" ++ pad2 d.month

/-- A normalized record: the coerced amounts plus every derived column
`process_data` adds. -/
structure NRec where
  data : Date
  cartao : ℚ
  dinheiro : ℚ
  pix : ℚ
  total : ℚ
  ano : ℕ
  mes : ℕ
  mesNome : String
  diaSemana : String
  dataFormatada : String
  anoMes : String
  diaDoMes : ℕ
deriving DecidableEq, Repr

/-- The derived columns of `process_data` for one row with a valid date. -/
def mkNRec (d : Date) (c dn p : ℚ) : NRec :=
  { data := d, cartao := c, dinheiro := dn, pix := p, total := c + dn + p,
    ano := d.year, mes := d.month, mesNome := mesNomeOf d.month,
    diaSemana := day_map d.dayofweek, dataFormatada := fmtDDMMYYYY d,
    anoMes := fmtYYYYMM d, diaDoMes := d.day }

/-- Date handling of `process_data` on one cell: an already-parsed date is
kept as-is (the datetime-dtype check at line 154), a string goes through the
day-first parse, and an unparsable or null date drops the row. -/
def parseDCell : DCell → Option Date
  | .date d => some d
  | .str s => parseDayfirst s
  | .null => none

/-- One row through `process_data`: monetary coercion, `Total`, and the
derived date columns; `none` when the row is dropped for its date. -/
def normRow (r : PRow) : Option NRec :=
  (parseDCell r.data).map
    (fun d => mkNRec d (procMoneyCell r.cartao) (procMoneyCell r.dinheiro)
      (procMoneyCell r.pix))

/-- `process_data` on a table whose `Data` column is present and not
entirely null (the shape `read_sales_data` produces): rows with unparsable
dates are dropped, the rest get the derived columns. -/
def process_data (rows : List PRow) : List NRec := rows.filterMap normRow

/-- Casts a normalized record back to a raw row (the columnar snapshot a
re-normalization would read: a datetime date and numeric amounts). -/
def outToRow (o : NRec) : PRow :=
  ⟨.date o.data, .num o.cartao, .num o.dinheiro, .num o.pix⟩

/-! ## Filter engine (`filter_by_rolling_days` lines 178-191, `apply_filters` lines 745-755) -/

/-- Python `max` on a list of naturals (`max(dias_selecionados)`); 0 on the
empty list, which the caller excludes. -/
def pyMaxNat (l : List ℕ) : ℕ := l.foldl Nat.max 0

/-- `df['Data'].max()` as a day index; 0 on the empty table, which the
caller excludes. -/
def maxDateIdx : List NRec → ℤ
  | [] => 0
  | r :: rs => rs.foldl (fun a s => max a s.data.idx) r.data.idx

/-- `filter_by_rolling_days`: identity on an empty table or an empty
day-count list; otherwise keeps the rows dated on or after
`max(Data) - (max(dias) - 1)` days. -/
def filter_by_rolling_days (df : List NRec) (dias : List ℕ) : List NRec :=
  if df = [] ∨ dias = [] then df
  else
    let data_inicio : ℤ := maxDateIdx df - ((pyMaxNat dias : ℤ) - 1)
    df.filter (fun r => decide (data_inicio ≤ r.data.idx))

/-- The filtering core of `apply_filters`: each provided (non-empty)
criterion is applied in turn; an empty criterion is skipped. -/
def apply_filters (df : List NRec) (anos meses dias : List ℕ) : List NRec :=
  let df1 := if anos = [] then df else df.filter (fun r => decide (r.ano ∈ anos))
  let df2 := if meses = [] then df1 else df1.filter (fun r => decide (r.mes ∈ meses))
  if dias = [] then df2 else filter_by_rolling_days df2 dias

/-! ## Financial calculator (`calculate_financial_results` lines 193-225) -/

/-- The result dictionary of `calculate_financial_results`. -/
structure FinResults where
  faturamento_bruto : ℚ
  faturamento_tributavel : ℚ
  faturamento_nao_tributavel : ℚ
  imposto_simples : ℚ
  custo_funcionario : ℚ
  custo_contadora : ℚ
  custo_fornecedores_valor : ℚ
  total_custos : ℚ
  lucro_bruto : ℚ
  margem_lucro_bruto : ℚ
  lucro_liquido : ℚ
  margem_lucro_liquido : ℚ
deriving DecidableEq, Repr

/-- `calculate_financial_results`: on an empty table the initial zero
dictionary (with the accountant fee echoed) is returned; otherwise revenue
sums, the four cost lines, profits, and the guarded margins. -/
def calculate_financial_results (df : List NRec)
    (salario_minimo custo_contadora custo_fornecedores_percentual : ℚ) :
    FinResults :=
  if df = [] then
    { faturamento_bruto := 0, faturamento_tributavel := 0,
      faturamento_nao_tributavel := 0, imposto_simples := 0,
      custo_funcionario := 0, custo_contadora := custo_contadora,
      custo_fornecedores_valor := 0, total_custos := 0, lucro_bruto := 0,
      margem_lucro_bruto := 0, lucro_liquido := 0, margem_lucro_liquido := 0 }
  else
    let fb := (df.map NRec.total).sum
    let ft := (df.map NRec.cartao).sum + (df.map NRec.pix).sum
    let fnt := (df.map NRec.dinheiro).sum
    let imposto := ft * (6 / 100)
    let funcionario := salario_minimo * (155 / 100)
    let fornecedores := fb * (custo_fornecedores_percentual / 100)
    let custos := imposto + funcionario + custo_contadora + fornecedores
    let lb := fb - custos
    let ll := fb - ft
    { faturamento_bruto := fb, faturamento_tributavel := ft,
      faturamento_nao_tributavel := fnt, imposto_simples := imposto,
      custo_funcionario := funcionario, custo_contadora := custo_contadora,
      custo_fornecedores_valor := fornecedores, total_custos := custos,
      lucro_bruto := lb,
      margem_lucro_bruto := if 0 < fb then lb / fb * 100 else 0,
      lucro_liquido := ll,
      margem_lucro_liquido := if 0 < fb then ll / fb * 100 else 0 }

/-! ## Weekday aggregator (`analyze_sales_by_weekday` lines 231-253) -/

/-- The `Total` values of the rows falling on weekday `d`. -/
def weekdayTotals (df : List NRec) (d : String) : List ℚ :=
  (df.filter (fun r => r.diaSemana == d)).map NRec.total

/-- The mean `Total` for weekday `d`: `none` when no row falls on it (the
entry `reindex(...).dropna()` removes). -/
def weekdayMean (df : List NRec) (d : String) : Option ℚ :=
  match weekdayTotals df d with
  | [] => none
  | l => some (l.sum / l.length)

/-- The (weekday, mean) pairs in the fixed Monday-first order, weekdays
without data dropped — the series `groupby.mean().reindex(ordem).dropna()`. -/
def weekdayPairs (df : List NRec) : List (String × ℚ) :=
  dias_semana_ordem.filterMap (fun d => (weekdayMean df d).map (fun m => (d, m)))

/-- The best-weekday component of `analyze_sales_by_weekday`: `idxmax` of
the weekday-mean series (the first maximum in the fixed order), `none` when
the series is empty. -/
def analyze_sales_by_weekday (df : List NRec) : Option String :=
  match weekdayPairs df with
  | [] => none
  | p :: ps => some (ps.foldl (fun best q => if best.2 < q.2 then q else best) p).1

/-! ## Accounting-view parameter defaulting (`update_contabil_results` lines 1188-1199) -/

/-- Python `x or default` on an optional numeric input: `None` and `0` are
falsy and yield the default. -/
def orDefault (v : Option ℚ) (d : ℚ) : ℚ :=
  match v with
  | none => d
  | some x => if x = 0 then d else x

/-- The computation core of `update_contabil_results` (line 1199):
`calculate_financial_results(df, salario or 1550, contadora or 316,
fornecedores or 30)`; an empty table short-circuits to a message (`none`). -/
def update_contabil_results (df : List NRec)
    (salario contadora fornecedores : Option ℚ) : Option FinResults :=
  if df = [] then none
  else some (calculate_financial_results df (orDefault salario 1550)
    (orDefault contadora 316) (orDefault fornecedores 30))

/-! ## Concrete tables used by the theorems -/

/-- The §8 financial test case: one record with card 300, cash 400, pix 300,
so gross revenue 1000, taxable revenue 600, cash 400. -/
def finTestTable : List NRec := [mkNRec ⟨2024, 1, 1⟩ 300 400 300]

/-- The financial result of the §8 test case with the default parameters
(wage 1550, accountant 316, supplier 30%). -/
def finTest : FinResults := calculate_financial_results finTestTable 1550 316 30

/-- Ten one-record days, 2024-01-01 through 2024-01-10, each totalling 10. -/
def januaryTable : List NRec :=
  (List.range 10).map (fun k => mkNRec ⟨2024, 1, k + 1⟩ 10 0 0)

/-- A one-record table whose only amount is the card value −100 (reachable:
the raw string "-100" coerces to the number −100). -/
def negativeTable : List NRec := [mkNRec ⟨2024, 1, 1⟩ (-100) 0 0]

end Pit

namespace Pit

/-! ## C1 — the §8 financial test case -/

/-- C1 (counterexample): on the claimed input the code's `total_custos` is
not 3038.50 (= 6077/2) and its `lucro_bruto` is not −2038.50, refuting the
claimed conjunction of output values. -/
theorem finTest_spec_values_wrong :
    finTest.total_custos ≠ 6077 / 2 ∧ finTest.lucro_bruto ≠ -(4077 / 2) := by
  constructor <;>
    norm_num [finTest, finTestTable, calculate_financial_results, mkNRec]

/-- C1 (amended): on the input with gross 1000, taxable 600, cash 400 and
parameters 1550/316/30, the code returns simplified tax 36, labor cost
2402.50, supplier cost 300, total costs 3054.50 (= 6109/2), gross profit
−2054.50 and net profit 400. -/
theorem finTest_actual_values :
    finTest.imposto_simples = 36 ∧
    finTest.custo_funcionario = 4805 / 2 ∧
    finTest.custo_fornecedores_valor = 300 ∧
    finTest.total_custos = 6109 / 2 ∧
    finTest.lucro_bruto = -(4109 / 2) ∧
    finTest.lucro_liquido = 400 := by
  refine ⟨?_, ?_, ?_, ?_, ?_, ?_⟩ <;>
    norm_num [finTest, finTestTable, calculate_financial_results, mkNRec]

/-! ## C4 — the financial formula set -/

/-- C4 (counterexample): on the empty record set the code returns labor
cost 0, not `minimum_wage × 1.55`, refuting the claim's universal
quantification over every record set. -/
theorem empty_table_labor_cost_zero :
    (calculate_financial_results [] 1550 316 30).custo_funcionario = 0 ∧
    (0 : ℚ) ≠ 1550 * (155 / 100) := by
  constructor <;> norm_num [calculate_financial_results]

/-- C4 (amended): for every non-empty record set and parameters, the
calculator computes gross revenue as the `Total` sum, taxable revenue as the
card + pix sums, non-taxable revenue as the cash sum, tax as 6% of taxable
revenue, labor as wage × 1.55, supplier cost as gross × percent/100, total
costs as the sum of the four cost lines, gross profit as gross − total
costs, and net profit as gross − taxable revenue. -/
theorem financial_formulas_nonempty (df : List NRec) (sm cc cfp : ℚ)
    (r : FinResults) (hdf : df ≠ [])
    (hr : r = calculate_financial_results df sm cc cfp) :
    r.faturamento_bruto = (df.map NRec.total).sum ∧
    r.faturamento_tributavel = (df.map NRec.cartao).sum + (df.map NRec.pix).sum ∧
    r.faturamento_nao_tributavel = (df.map NRec.dinheiro).sum ∧
    r.imposto_simples = r.faturamento_tributavel * (6 / 100) ∧
    r.custo_funcionario = sm * (155 / 100) ∧
    r.custo_contadora = cc ∧
    r.custo_fornecedores_valor = r.faturamento_bruto * (cfp / 100) ∧
    r.total_custos = r.imposto_simples + r.custo_funcionario +
      r.custo_contadora + r.custo_fornecedores_valor ∧
    r.lucro_bruto = r.faturamento_bruto - r.total_custos ∧
    r.lucro_liquido = r.faturamento_bruto - r.faturamento_tributavel := by
  subst hr
  simp [calculate_financial_results, hdf]

/-- C4 (witness): the amended theorem applied to the §8 test table. -/
theorem financial_formulas_nonempty_witness :
    finTest.faturamento_bruto = (finTestTable.map NRec.total).sum ∧
    finTest.faturamento_tributavel =
      (finTestTable.map NRec.cartao).sum + (finTestTable.map NRec.pix).sum ∧
    finTest.faturamento_nao_tributavel = (finTestTable.map NRec.dinheiro).sum ∧
    finTest.imposto_simples = finTest.faturamento_tributavel * (6 / 100) ∧
    finTest.custo_funcionario = 1550 * (155 / 100) ∧
    finTest.custo_contadora = 316 ∧
    finTest.custo_fornecedores_valor = finTest.faturamento_bruto * (30 / 100) ∧
    finTest.total_custos = finTest.imposto_simples + finTest.custo_funcionario +
      finTest.custo_contadora + finTest.custo_fornecedores_valor ∧
    finTest.lucro_bruto = finTest.faturamento_bruto - finTest.total_custos ∧
    finTest.lucro_liquido = finTest.faturamento_bruto - finTest.faturamento_tributavel :=
  financial_formulas_nonempty finTestTable 1550 316 30 finTest
    (by decide) rfl

/-! ## C9 — guarded margins -/

/-- C9 (counterexample): a record set with negative gross revenue (card
−100, reachable from the raw string "-100") has `margem_lucro_bruto = 0`
while `lucro_bruto / faturamento_bruto × 100` is non-zero, refuting the
claim that the margin always equals that formula with 0 only at gross
revenue 0. -/
theorem negative_revenue_margin_not_formula :
    (calculate_financial_results negativeTable 1550 316 30).margem_lucro_bruto = 0 ∧
    (calculate_financial_results negativeTable 1550 316 30).lucro_bruto /
      (calculate_financial_results negativeTable 1550 316 30).faturamento_bruto * 100 ≠ 0 := by
  constructor <;> norm_num [negativeTable, calculate_financial_results, mkNRec]

/-- C9 (amended): for every record set and parameters, each margin equals
`profit / gross_revenue × 100` when gross revenue is strictly positive and
0 otherwise (in particular at gross revenue 0, where the division is never
performed). -/
theorem margins_guarded (df : List NRec) (sm cc cfp : ℚ) (r : FinResults)
    (hr : r = calculate_financial_results df sm cc cfp) :
    (r.margem_lucro_bruto =
      if 0 < r.faturamento_bruto then r.lucro_bruto / r.faturamento_bruto * 100 else 0) ∧
    (r.margem_lucro_liquido =
      if 0 < r.faturamento_bruto then r.lucro_liquido / r.faturamento_bruto * 100 else 0) ∧
    (r.faturamento_bruto = 0 →
      r.margem_lucro_bruto = 0 ∧ r.margem_lucro_liquido = 0) := by
  subst hr
  by_cases hdf : df = [] <;>
    simp [calculate_financial_results, hdf] <;>
    intro h0 <;> simp [h0]

/-- C9 (witness): the amended theorem applied to the empty table, where
gross revenue is 0 and both margins are 0. -/
theorem margins_guarded_witness :
    (calculate_financial_results [] 1550 316 30).margem_lucro_bruto = 0 ∧
    (calculate_financial_results [] 1550 316 30).margem_lucro_liquido = 0 :=
  (margins_guarded [] 1550 316 30 _ rfl).2.2 (by decide)

/-! ## C7 — `Total` invariant and idempotent normalization -/

/-- A raw row exercising every coercion: a day-first date string, a
negative-number string, an empty string, and a plain number. -/
def sampleRow : PRow := ⟨.str "05/01/2024", .str "-5", .str "", .num 3⟩

/-- The normalized record `sampleRow` produces. -/
def sampleOut : NRec := mkNRec ⟨2024, 1, 5⟩ (-5) 0 3

/-- C7: every row `process_data` keeps has `Total` exactly equal to
card + cash + pix, and normalization is idempotent — re-normalizing the
columnar snapshot of a normalized record (and of a whole normalized table)
reproduces it unchanged, field for field. -/
theorem normalization_total_and_idempotent :
    (∀ (r : PRow) (o : NRec), normRow r = some o →
      o.total = o.cartao + o.dinheiro + o.pix ∧ normRow (outToRow o) = some o) ∧
    (∀ rows : List PRow,
      process_data ((process_data rows).map outToRow) = process_data rows) := by
  have key : ∀ (r : PRow) (o : NRec), normRow r = some o →
      o.total = o.cartao + o.dinheiro + o.pix ∧ normRow (outToRow o) = some o := by
    intro r o h
    rw [normRow, Option.map_eq_some'] at h
    obtain ⟨d, _, rfl⟩ := h
    exact ⟨rfl, rfl⟩
  refine ⟨key, fun rows => ?_⟩
  induction rows with
  | nil => rfl
  | cons r rs ih =>
    cases h : normRow r with
    | none =>
      simpa [process_data, List.filterMap_cons, h] using ih
    | some o =>
      simpa [process_data, List.filterMap_cons, h, (key r o h).2] using ih

/-- C7 (witness): the per-row statement applied to `sampleRow`, whose
normalization is `sampleOut`. -/
theorem normalization_total_and_idempotent_witness :
    sampleOut.total = sampleOut.cartao + sampleOut.dinheiro + sampleOut.pix ∧
    normRow (outToRow sampleOut) = some sampleOut :=
  normalization_total_and_idempotent.1 sampleRow sampleOut rfl

/-! ## C6 — AND semantics and compositionality of the filter engine -/

/-- A record kept by the rolling-day filter comes from the input table. -/
theorem mem_of_mem_rolling {df : List NRec} {dias : List ℕ} {r : NRec}
    (h : r ∈ filter_by_rolling_days df dias) : r ∈ df := by
  by_cases hc : df = [] ∨ dias = []
  · simpa only [filter_by_rolling_days, if_pos hc] using h
  · simp only [filter_by_rolling_days, if_neg hc] at h
    exact (List.mem_filter.1 h).1

/-- The filter engine applies the year and month criteria first and the
rolling-day criterion last, on their output. -/
theorem apply_filters_dias_split (df : List NRec) (anos meses dias : List ℕ) :
    apply_filters df anos meses dias =
      if dias = [] then apply_filters df anos meses []
      else filter_by_rolling_days (apply_filters df anos meses []) dias := by
  by_cases hd : dias = [] <;> simp [apply_filters, hd]

/-- C6: the filter engine returns the subset matching all provided
criteria — an empty criterion is the identity, year/month filtering is an
AND of memberships (and every kept record matched each provided criterion,
the rolling window included), and the independent year and month dimensions
compose and commute: filtering by years then months equals filtering by
both at once, in either order. -/
theorem apply_filters_and_semantics :
    (∀ df : List NRec, apply_filters df [] [] [] = df) ∧
    (∀ (df : List NRec) (anos meses : List ℕ) (r : NRec),
      r ∈ apply_filters df anos meses [] ↔
        r ∈ df ∧ (anos ≠ [] → r.ano ∈ anos) ∧ (meses ≠ [] → r.mes ∈ meses)) ∧
    (∀ (df : List NRec) (anos meses dias : List ℕ) (r : NRec),
      r ∈ apply_filters df anos meses dias →
        r ∈ df ∧ (anos ≠ [] → r.ano ∈ anos) ∧ (meses ≠ [] → r.mes ∈ meses)) ∧
    (∀ (df : List NRec) (anos meses : List ℕ),
      apply_filters (apply_filters df anos [] []) [] meses [] =
        apply_filters df anos meses []) ∧
    (∀ (df : List NRec) (anos meses : List ℕ),
      apply_filters (apply_filters df [] meses []) anos [] [] =
        apply_filters df anos meses []) := by
  have h1 : ∀ df : List NRec, apply_filters df [] [] [] = df := by
    intro df
    simp [apply_filters]
  have h2 : ∀ (df : List NRec) (anos meses : List ℕ) (r : NRec),
      r ∈ apply_filters df anos meses [] ↔
        r ∈ df ∧ (anos ≠ [] → r.ano ∈ anos) ∧ (meses ≠ [] → r.mes ∈ meses) := by
    intro df anos meses r
    by_cases ha : anos = [] <;> by_cases hm : meses = [] <;>
      simp [apply_filters, ha, hm, List.mem_filter, and_assoc] <;>
      tauto
  have h3 : ∀ (df : List NRec) (anos meses dias : List ℕ) (r : NRec),
      r ∈ apply_filters df anos meses dias →
        r ∈ df ∧ (anos ≠ [] → r.ano ∈ anos) ∧ (meses ≠ [] → r.mes ∈ meses) := by
    intro df anos meses dias r h
    rw [apply_filters_dias_split] at h
    by_cases hd : dias = []
    · rw [if_pos hd] at h
      exact (h2 df anos meses r).1 h
    · rw [if_neg hd] at h
      exact (h2 df anos meses r).1 (mem_of_mem_rolling h)
  refine ⟨h1, h2, h3, fun df anos meses => ?_, fun df anos meses => ?_⟩
  · by_cases ha : anos = [] <;> by_cases hm : meses = [] <;>
      simp [apply_filters, ha, hm, List.filter_filter]
  · by_cases ha : anos = [] <;> by_cases hm : meses = [] <;>
      simp [apply_filters, ha, hm, List.filter_filter] <;>
      exact List.filter_congr (fun r _ => Bool.and_comm _ _)

/-- C6 (witness): the kept-records-match-all-criteria part applied to the
January table with years = [2024], months = [1], days = [7] and the record
of 2024-01-10, which the engine keeps. -/
theorem apply_filters_and_semantics_witness :
    mkNRec ⟨2024, 1, 10⟩ 10 0 0 ∈ januaryTable ∧
    (([2024] : List ℕ) ≠ [] → (mkNRec ⟨2024, 1, 10⟩ 10 0 0).ano ∈ ([2024] : List ℕ)) ∧
    (([1] : List ℕ) ≠ [] → (mkNRec ⟨2024, 1, 10⟩ 10 0 0).mes ∈ ([1] : List ℕ)) :=
  apply_filters_and_semantics.2.2.1 januaryTable [2024] [1] [7] _ (by
    have h : apply_filters januaryTable [2024] [1] [7] =
        (List.range 7).map (fun k => mkNRec ⟨2024, 1, k + 4⟩ 10 0 0) := rfl
    rw [h]
    exact List.mem_map.2 ⟨6, by simp, rfl⟩)

/-! ## C5 — the rolling-day filter -/

/-- The fold computing a running natural maximum dominates its seed. -/
theorem foldl_nat_max_le_self (l : List ℕ) : ∀ a : ℕ, a ≤ l.foldl Nat.max a := by
  induction l with
  | nil => exact fun a => le_refl a
  | cons x l ih => exact fun a => le_trans (Nat.le_max_left a x) (ih (Nat.max a x))

/-- The fold computing a running natural maximum dominates every element. -/
theorem foldl_nat_max_mem_le (l : List ℕ) :
    ∀ (a x : ℕ), x ∈ l → x ≤ l.foldl Nat.max a := by
  induction l with
  | nil => intro a x hx; cases hx
  | cons y l ih =>
    intro a x hx
    rcases List.mem_cons.1 hx with h | h
    · subst h
      exact le_trans (Nat.le_max_right a x) (foldl_nat_max_le_self l _)
    · exact ih _ x h

/-- The fold computing a running natural maximum returns its seed or an
element. -/
theorem foldl_nat_max_mem_or (l : List ℕ) :
    ∀ a : ℕ, l.foldl Nat.max a = a ∨ l.foldl Nat.max a ∈ l := by
  induction l with
  | nil => exact fun a => Or.inl rfl
  | cons y l ih =>
    intro a
    rcases ih (Nat.max a y) with h | h
    · have hc : Nat.max a y = a ∨ Nat.max a y = y := by
        show a ⊔ y = a ∨ a ⊔ y = y
        exact max_choice a y
      rcases hc with hc | hc
      · left
        rw [List.foldl_cons, h, hc]
      · right
        rw [List.foldl_cons, h, hc]
        exact List.mem_cons_self y l
    · right
      rw [List.foldl_cons]
      exact List.mem_cons_of_mem y h

/-- `max(dias_selecionados)`: on a non-empty list the fold from 0 is an
element and an upper bound — Python's `max`. -/
theorem pyMaxNat_spec {l : List ℕ} (h : l ≠ []) :
    pyMaxNat l ∈ l ∧ ∀ x ∈ l, x ≤ pyMaxNat l := by
  constructor
  · rcases foldl_nat_max_mem_or l 0 with h0 | hm
    · cases l with
      | nil => exact absurd rfl h
      | cons x xs =>
        have hx : x ≤ List.foldl Nat.max 0 (x :: xs) :=
          foldl_nat_max_mem_le _ 0 x (List.mem_cons_self x xs)
        rw [h0] at hx
        have hx0 : x = 0 := Nat.le_zero.1 hx
        unfold pyMaxNat
        rw [h0, ← hx0]
        exact List.mem_cons_self x xs
    · exact hm
  · exact fun x hx => foldl_nat_max_mem_le l 0 x hx

/-- The fold computing a running date maximum dominates its seed. -/
theorem foldl_idx_le_self (l : List NRec) :
    ∀ a : ℤ, a ≤ l.foldl (fun a s => max a s.data.idx) a := by
  induction l with
  | nil => exact fun a => le_refl a
  | cons x l ih => exact fun a => le_trans (le_max_left a x.data.idx) (ih _)

/-- The fold computing a running date maximum dominates every element. -/
theorem foldl_idx_mem_le (l : List NRec) :
    ∀ (a : ℤ) (r : NRec), r ∈ l →
      r.data.idx ≤ l.foldl (fun a s => max a s.data.idx) a := by
  induction l with
  | nil => intro a r hr; cases hr
  | cons y l ih =>
    intro a r hr
    rcases List.mem_cons.1 hr with h | h
    · subst h
      exact le_trans (le_max_right a r.data.idx) (foldl_idx_le_self l _)
    · exact ih _ r h

/-- The fold computing a running date maximum returns its seed or the index
of an element. -/
theorem foldl_idx_mem_or (l : List NRec) :
    ∀ a : ℤ, l.foldl (fun a s => max a s.data.idx) a = a ∨
      ∃ r ∈ l, l.foldl (fun a s => max a s.data.idx) a = r.data.idx := by
  induction l with
  | nil => exact fun a => Or.inl rfl
  | cons y l ih =>
    intro a
    rcases ih (max a y.data.idx) with h | h
    · rcases max_choice a y.data.idx with hc | hc
      · left
        rw [List.foldl_cons, h, hc]
      · right
        exact ⟨y, List.mem_cons_self y l, by rw [List.foldl_cons, h, hc]⟩
    · right
      obtain ⟨r, hr, he⟩ := h
      exact ⟨r, List.mem_cons_of_mem y hr, by rw [List.foldl_cons, he]⟩

/-- `df['Data'].max()`: on a non-empty table the computed index is the index
of some record and an upper bound on all of them. -/
theorem maxDateIdx_spec {df : List NRec} (h : df ≠ []) :
    (∃ r ∈ df, maxDateIdx df = r.data.idx) ∧
    ∀ r ∈ df, r.data.idx ≤ maxDateIdx df := by
  cases df with
  | nil => exact absurd rfl h
  | cons x xs =>
    constructor
    · rcases foldl_idx_mem_or xs x.data.idx with h0 | hm
      · exact ⟨x, List.mem_cons_self x xs, h0⟩
      · obtain ⟨r, hr, he⟩ := hm
        exact ⟨r, List.mem_cons_of_mem x hr, he⟩
    · intro r hr
      rcases List.mem_cons.1 hr with h | h
      · subst h
        exact foldl_idx_le_self xs r.data.idx
      · exact foldl_idx_mem_le xs x.data.idx r h

/-- C5: for every non-empty table and non-empty day-count list, the rolling
filter keeps exactly the records dated within `maxN - 1` days of the most
recent date — where `M` is the maximum date index of the table and `N` the
maximum requested day-count — and only that largest day-count has any
effect.  In particular, on the ten January days with days = [7] it returns
exactly the seven records of 2024-01-04 through 2024-01-10. -/
theorem rolling_days_filter_spec :
    (∀ (df : List NRec) (dias : List ℕ), df ≠ [] → dias ≠ [] →
      ∃ M N, (∃ r ∈ df, M = r.data.idx) ∧ (∀ r ∈ df, r.data.idx ≤ M) ∧
        N ∈ dias ∧ (∀ n ∈ dias, n ≤ N) ∧
        (∀ r : NRec, r ∈ filter_by_rolling_days df dias ↔
          r ∈ df ∧ M - ((N : ℤ) - 1) ≤ r.data.idx) ∧
        filter_by_rolling_days df dias = filter_by_rolling_days df [N]) ∧
    filter_by_rolling_days januaryTable [7] =
      (List.range 7).map (fun k => mkNRec ⟨2024, 1, k + 4⟩ 10 0 0) := by
  refine ⟨fun df dias hdf hd => ?_, rfl⟩
  have hc : ¬(df = [] ∨ dias = []) := by
    rintro (h | h)
    · exact hdf h
    · exact hd h
  have hc1 : ¬(df = [] ∨ ([pyMaxNat dias] : List ℕ) = []) := by
    rintro (h | h)
    · exact hdf h
    · exact List.noConfusion h
  obtain ⟨hMmem, hMub⟩ := maxDateIdx_spec hdf
  obtain ⟨hNmem, hNub⟩ := pyMaxNat_spec hd
  refine ⟨maxDateIdx df, pyMaxNat dias, hMmem, hMub, hNmem, hNub, fun r => ?_, ?_⟩
  · simp only [filter_by_rolling_days, if_neg hc, List.mem_filter,
      decide_eq_true_eq]
  · simp only [filter_by_rolling_days, if_neg hc, if_neg hc1]
    have hN : pyMaxNat [pyMaxNat dias] = pyMaxNat dias := by
      simp [pyMaxNat]
    rw [hN]

/-- C5 (witness): the general statement applied to the January table with
days = [7]. -/
theorem rolling_days_filter_spec_witness :
    ∃ M N, (∃ r ∈ januaryTable, M = r.data.idx) ∧
      (∀ r ∈ januaryTable, r.data.idx ≤ M) ∧
      N ∈ ([7] : List ℕ) ∧ (∀ n ∈ ([7] : List ℕ), n ≤ N) ∧
      (∀ r : NRec, r ∈ filter_by_rolling_days januaryTable [7] ↔
        r ∈ januaryTable ∧ M - ((N : ℤ) - 1) ≤ r.data.idx) ∧
      filter_by_rolling_days januaryTable [7] =
        filter_by_rolling_days januaryTable [N] :=
  rolling_days_filter_spec.1 januaryTable [7] (by decide) (by decide)

/-! ## C8 — deterministic best-weekday selection -/

/-- The `idxmax` fold on a series keeps its seed (then nothing is larger),
or lands on an element strictly above the seed and everything before it,
with nothing after it larger — the first maximum. -/
theorem idxmax_fold_spec (l : List (String × ℚ)) :
    ∀ b r, l.foldl (fun best q => if best.2 < q.2 then q else best) b = r →
      (r = b ∧ ∀ q ∈ l, q.2 ≤ b.2) ∨
      (∃ l1 l2, l = l1 ++ r :: l2 ∧ b.2 < r.2 ∧
        (∀ q ∈ l1, q.2 < r.2) ∧ (∀ q ∈ l2, q.2 ≤ r.2)) := by
  induction l with
  | nil =>
    intro b r h
    exact Or.inl ⟨h.symm, by simp⟩
  | cons y l ih =>
    intro b r h
    rw [List.foldl_cons] at h
    by_cases hby : b.2 < y.2
    · rw [if_pos hby] at h
      rcases ih y r h with ⟨hr, hub⟩ | ⟨l1, l2, hsplit, hlt, hl1, hl2⟩
      · subst hr
        refine Or.inr ⟨[], l, by simp, hby, by simp, hub⟩
      · refine Or.inr ⟨y :: l1, l2, by rw [hsplit]; rfl, lt_trans hby hlt, ?_, hl2⟩
        intro q hq
        rcases List.mem_cons.1 hq with hq | hq
        · subst hq
          exact hlt
        · exact hl1 q hq
    · rw [if_neg hby] at h
      rcases ih b r h with ⟨hr, hub⟩ | ⟨l1, l2, hsplit, hlt, hl1, hl2⟩
      · subst hr
        refine Or.inl ⟨rfl, ?_⟩
        intro q hq
        rcases List.mem_cons.1 hq with hq | hq
        · subst hq
          exact le_of_not_lt hby
        · exact hub q hq
      · refine Or.inr ⟨y :: l1, l2, by rw [hsplit]; rfl, hlt, ?_, hl2⟩
        intro q hq
        rcases List.mem_cons.1 hq with hq | hq
        · subst hq
          exact lt_of_le_of_lt (le_of_not_lt hby) hlt
        · exact hl1 q hq

/-- A split of a `filterMap` output induces a split of its input: the kept
element comes from some input element, and the prefix of the output is the
`filterMap` of the input's prefix. -/
theorem filterMap_split {α β : Type} (f : α → Option β) :
    ∀ (L : List α) (l1 l2 : List β) (p : β), L.filterMap f = l1 ++ p :: l2 →
      ∃ L1 x L2, L = L1 ++ x :: L2 ∧ f x = some p ∧ L1.filterMap f = l1 := by
  intro L
  induction L with
  | nil =>
    intro l1 l2 p h
    rw [List.filterMap_nil] at h
    exact absurd h.symm (List.append_ne_nil_of_right_ne_nil l1 (List.cons_ne_nil p l2))
  | cons a L ih =>
    intro l1 l2 p h
    cases hfa : f a with
    | none =>
      simp only [List.filterMap_cons, hfa] at h
      obtain ⟨L1, x, L2, hL, hx, hl1⟩ := ih l1 l2 p h
      exact ⟨a :: L1, x, L2, by rw [hL]; rfl, hx,
        by simp only [List.filterMap_cons, hfa, hl1]⟩
    | some b =>
      simp only [List.filterMap_cons, hfa] at h
      cases l1 with
      | nil =>
        simp only [List.nil_append, List.cons.injEq] at h
        exact ⟨[], a, L, rfl, by rw [hfa, h.1], List.filterMap_nil f⟩
      | cons q l1 =>
        simp only [List.cons_append, List.cons.injEq] at h
        obtain ⟨hbq, hrest⟩ := h
        obtain ⟨L1, x, L2, hL, hx, hl1⟩ := ih l1 l2 p hrest
        exact ⟨a :: L1, x, L2, by rw [hL]; rfl, hx,
          by simp only [List.filterMap_cons, hfa, hl1, hbq]⟩

/-- A pair is in the weekday-mean series exactly when its weekday is one of
the seven ordered names and carries that mean. -/
theorem mem_weekdayPairs {df : List NRec} {d : String} {m : ℚ} :
    (d, m) ∈ weekdayPairs df ↔
      d ∈ dias_semana_ordem ∧ weekdayMean df d = some m := by
  constructor
  · intro h
    obtain ⟨a, ha, hfa⟩ := List.mem_filterMap.1 h
    rw [Option.map_eq_some'] at hfa
    obtain ⟨q, hq, heq⟩ := hfa
    cases heq
    exact ⟨ha, hq⟩
  · rintro ⟨hd, hm⟩
    exact List.mem_filterMap.2 ⟨d, hd, by rw [hm]; rfl⟩

/-- The best-weekday result is the no-data sentinel exactly when the
weekday-mean series is empty. -/
theorem analyze_eq_none_iff (df : List NRec) :
    analyze_sales_by_weekday df = none ↔ weekdayPairs df = [] := by
  cases hp : weekdayPairs df with
  | nil => simp [analyze_sales_by_weekday, hp]
  | cons p ps => simp [analyze_sales_by_weekday, hp]

/-- C8: best-weekday selection is the deterministic first maximum — the
result is the sentinel exactly when no weekday has data; and a returned
weekday has a mean that dominates every weekday's mean, with every weekday
strictly earlier in the fixed Monday-first order having a strictly smaller
mean (so on ties the earlier weekday wins). -/
theorem best_weekday_first_max (df : List NRec) :
    (analyze_sales_by_weekday df = none ↔
      ∀ d ∈ dias_semana_ordem, weekdayMean df d = none) ∧
    (∀ d, analyze_sales_by_weekday df = some d →
      ∃ m, weekdayMean df d = some m ∧
        (∀ d' ∈ dias_semana_ordem, ∀ m', weekdayMean df d' = some m' → m' ≤ m) ∧
        ∃ L1 L2, dias_semana_ordem = L1 ++ d :: L2 ∧
          ∀ d' ∈ L1, ∀ m', weekdayMean df d' = some m' → m' < m) := by
  constructor
  · rw [analyze_eq_none_iff, weekdayPairs, List.filterMap_eq_nil_iff]
    simp only [Option.map_eq_none']
  · intro d hd
    cases hp : weekdayPairs df with
    | nil =>
      rw [analyze_sales_by_weekday, hp] at hd
      exact Option.noConfusion hd
    | cons p ps =>
      rw [analyze_sales_by_weekday, hp] at hd
      set r := ps.foldl (fun best q => if best.2 < q.2 then q else best) p with hr
      have hd1 : r.1 = d := Option.some.inj hd
      have hspec := idxmax_fold_spec ps p r hr.symm
      have hub : ∀ q ∈ p :: ps, q.2 ≤ r.2 := by
        rcases hspec with ⟨hre, hubps⟩ | ⟨l1, l2, hsplit, hlt, hl1, hl2⟩
        · intro q hq
          rcases List.mem_cons.1 hq with hq | hq
          · subst hq
            rw [hre]
          · rw [hre]
            exact hubps q hq
        · intro q hq
          rcases List.mem_cons.1 hq with hq | hq
          · subst hq
            exact le_of_lt hlt
          · rw [hsplit] at hq
            rcases List.mem_append.1 hq with hq | hq
            · exact le_of_lt (hl1 q hq)
            · rcases List.mem_cons.1 hq with hq | hq
              · subst hq
                exact le_refl _
              · exact hl2 q hq
      have hsplit2 : ∃ l1p l2p, weekdayPairs df = l1p ++ r :: l2p ∧
          ∀ q ∈ l1p, q.2 < r.2 := by
        rcases hspec with ⟨hre, _⟩ | ⟨l1, l2, hsplit, hlt, hl1, _⟩
        · exact ⟨[], ps, by rw [hp, hre]; rfl, by simp⟩
        · refine ⟨p :: l1, l2, by rw [hp, hsplit]; rfl, ?_⟩
          intro q hq
          rcases List.mem_cons.1 hq with hq | hq
          · subst hq
            exact hlt
          · exact hl1 q hq
      obtain ⟨l1p, l2p, hpairs, hl1p⟩ := hsplit2
      obtain ⟨L1, x, L2, hL, hx, hfl1⟩ := filterMap_split _ dias_semana_ordem l1p l2p r hpairs
      have hxd : x = d := by
        rw [Option.map_eq_some'] at hx
        obtain ⟨q, _, heq⟩ := hx
        rw [← hd1, ← heq]
      refine ⟨r.2, ?_, ?_, L1, L2, by rw [← hxd, ← hL], ?_⟩
      · have : (d, r.2) ∈ weekdayPairs df := by
          rw [hpairs, ← hd1, Prod.mk.eta]
          exact List.mem_append.2 (Or.inr (List.mem_cons_self r l2p))
        exact (mem_weekdayPairs.1 this).2
      · intro d' hd' m' hm'
        have : (d', m') ∈ weekdayPairs df := mem_weekdayPairs.2 ⟨hd', hm'⟩
        rw [hp] at this
        exact hub (d', m') this
      · intro d' hd' m' hm'
        have : (d', m') ∈ l1p := by
          rw [← hfl1]
          exact List.mem_filterMap.2 ⟨d', hd', by rw [hm']; rfl⟩
        exact hl1p (d', m') this

/-- A table with equal average totals on Monday (2024-01-01) and Wednesday
(2024-01-03): a genuine tie at the maximal mean. -/
def tieTable : List NRec := [mkNRec ⟨2024, 1, 1⟩ 5 0 0, mkNRec ⟨2024, 1, 3⟩ 5 0 0]

/-- C8 (witness): on the tie table the engine returns Monday — the earlier
of the two equally-averaged weekdays — and the theorem instantiates there:
Monday's mean dominates all means and every strictly earlier weekday (none)
is strictly below it. -/
theorem best_weekday_first_max_witness :
    ∃ m, weekdayMean tieTable "Segunda-feira" = some m ∧
      (∀ d' ∈ dias_semana_ordem, ∀ m', weekdayMean tieTable d' = some m' → m' ≤ m) ∧
      ∃ L1 L2, dias_semana_ordem = L1 ++ "Segunda-feira" :: L2 ∧
        ∀ d' ∈ L1, ∀ m', weekdayMean tieTable d' = some m' → m' < m :=
  (best_weekday_first_max tieTable).2 "Segunda-feira" (by
    have hA1 : (mkNRec ⟨2024, 1, 1⟩ 5 0 0).diaSemana = "Segunda-feira" := rfl
    have hB1 : (mkNRec ⟨2024, 1, 3⟩ 5 0 0).diaSemana = "Quarta-feira" := rfl
    have hA2 : (mkNRec ⟨2024, 1, 1⟩ 5 0 0).total = 5 + 0 + 0 := rfl
    have hB2 : (mkNRec ⟨2024, 1, 3⟩ 5 0 0).total = 5 + 0 + 0 := rfl
    simp [analyze_sales_by_weekday, weekdayPairs, dias_semana_ordem, weekdayMean,
      weekdayTotals, tieTable, List.filter_cons, hA1, hB1, hA2, hB2])

/-! ## C2 — the day-first fallback of `read_sales_data` -/

/-- C2 (code bug): the fallback pass of the date block can never recover a
date — it re-parses the column that was already overwritten by the coerced
strict pass, on which every value passes through unchanged, so the block
always equals the strict `DD/MM/YYYY` parse alone.  Concretely, the ISO
string "2024-01-05" is valid under day-first parsing, yet its row is
dropped. -/
theorem dayfirst_fallback_never_recovers :
    (∀ raw, readProcessDates raw = raw.map parseDDMMYYYY) ∧
    readKeptDates ["2024-01-05"] = [] ∧
    parseDayfirst "2024-01-05" = some ⟨2024, 1, 5⟩ := by
  refine ⟨fun raw => ?_, by decide, by decide⟩
  simp [readProcessDates, to_datetime_on_datetime]

/-! ## C3 — monetary coercion -/

/-- C3 (counterexample): the negative-number string "-5" coerces to the
number −5, not to 0, in both coercion passes, refuting the claim that every
negative-number string yields 0. -/
theorem negative_string_not_zeroed :
    readMoneyCell (.str "-5") = -5 ∧ procMoneyCell (.str "-5") = -5 ∧
    (-5 : ℚ) ≠ 0 := by
  refine ⟨by decide, by decide, by norm_num⟩

/-- C3 (amended): both monetary coercions are total functions that send the
empty string and every non-numeric string to 0, a missing amount column is
created as all-zero, and a parsable (in particular negative) number string
yields its numeric value. -/
theorem money_coercion_total :
    readMoneyCell (.str "") = 0 ∧
    procMoneyCell (.str "") = 0 ∧
    (∀ s, parseDecimal s = none →
      readMoneyCell (.str s) = 0 ∧ procMoneyCell (.str s) = 0) ∧
    (∀ cells, readMoneyColumn false cells = cells.map (fun _ => 0)) ∧
    (∀ s q, parseDecimal s = some q →
      readMoneyCell (.str s) = q ∧ procMoneyCell (.str s) = q) := by
  refine ⟨rfl, rfl, fun s hs => ⟨?_, ?_⟩, fun cells => rfl, fun s q hq => ⟨?_, ?_⟩⟩
  · by_cases he : s = "" <;> simp [readMoneyCell, he, hs]
  · simp [procMoneyCell, hs]
  · have he : s ≠ "" := by
      intro h
      rw [h] at hq
      exact Option.noConfusion hq
    simp [readMoneyCell, he, hq]
  · simp [procMoneyCell, hq]

/-- C3 (witness): the amended theorem applied to the non-numeric string
"abc" and to the negative-number string "-5". -/
theorem money_coercion_total_witness :
    (readMoneyCell (.str "abc") = 0 ∧ procMoneyCell (.str "abc") = 0) ∧
    (readMoneyCell (.str "-5") = -5 ∧ procMoneyCell (.str "-5") = -5) :=
  ⟨money_coercion_total.2.2.1 "abc" (by decide),
   money_coercion_total.2.2.2.2 "-5" (-5) (by decide)⟩

/-! ## C10 — zero parameters replaced by UI defaults -/

/-- C10: a financial parameter supplied as 0 is falsy in `x or default` and
is replaced by its default (1550 / 316 / 30) before the computation, exactly
as an absent (`None`) parameter is; a user-entered zero is never used. -/
theorem zero_params_replaced_by_defaults :
    orDefault (some 0) 1550 = 1550 ∧
    orDefault (some 0) 316 = 316 ∧
    orDefault (some 0) 30 = 30 ∧
    (∀ df c f, update_contabil_results df (some 0) c f =
      update_contabil_results df none c f) ∧
    (∀ df s f, update_contabil_results df s (some 0) f =
      update_contabil_results df s none f) ∧
    (∀ df s c, update_contabil_results df s c (some 0) =
      update_contabil_results df s c none) ∧
    (∀ df, update_contabil_results df (some 0) (some 0) (some 0) =
      if df = [] then none else some (calculate_financial_results df 1550 316 30)) := by
  refine ⟨rfl, rfl, rfl, fun df c f => rfl, fun df s f => rfl, fun df s c => rfl,
    fun df => rfl⟩

end Pit
